import Mathlib

/-!
Verification of the model-source registry backend (`src/main.py`,
`src/schemas.py`).

The embedding models the MongoDB document store as explicit Lean lists of
records, the FastAPI handlers as pure state transformers over that store,
and Python's `base64.b64encode` / `base64.b64decode` as executable Lean
functions on byte lists.  Machine bytes are `Nat` values below 256.
-/

namespace Registry

/-! ### Base64 (models Python `base64.b64encode` / `b64decode`) -/

/-- The standard base64 alphabet used by `base64.b64encode`. -/
def b64Alphabet : List Char :=
  "ABCDEFGHIJKLMNOPQRSTUVWXYZabcdefghijklmnopqrstuvwxyz0123456789+/".toList

/-- Character for a 6-bit group. -/
def tbl (n : Nat) : Char := b64Alphabet.getD n 'A'

/-- Index of a character in the base64 alphabet, `none` if absent. -/
def idx (c : Char) : Option Nat := b64Alphabet.findIdx? (fun x => x == c)

/-- `base64.b64encode` on a byte list, producing the character stream
(3 bytes become 4 characters; the final partial group is padded with `=`). -/
def b64encodeChars : List Nat → List Char
  | [] => []
  | [a] => [tbl (a / 4), tbl (a % 4 * 16), '=', '=']
  | [a, b] => [tbl (a / 4), tbl (a % 4 * 16 + b / 16), tbl (b % 16 * 4), '=']
  | a :: b :: c :: rest =>
      tbl (a / 4) :: tbl (a % 4 * 16 + b / 16) :: tbl (b % 16 * 4 + c / 64) ::
        tbl (c % 64) :: b64encodeChars rest

/-- `base64.b64encode(content).decode('utf-8')`: the stored string. -/
def b64encode (bs : List Nat) : String := String.mk (b64encodeChars bs)

/-- `base64.b64decode` on a character stream: groups of 4 characters decode
to 3 bytes, with `=` padding handling in the final group; malformed input
gives `none`. -/
def b64decodeChars : List Char → Option (List Nat)
  | [] => some []
  | [w, x, y, z] =>
      if z = '=' then
        if y = '=' then
          match idx w, idx x with
          | some a, some b => some [a * 4 + b / 16]
          | _, _ => none
        else
          match idx w, idx x, idx y with
          | some a, some b, some c => some [a * 4 + b / 16, b % 16 * 16 + c / 4]
          | _, _, _ => none
      else
        match idx w, idx x, idx y, idx z with
        | some a, some b, some c, some d =>
            some [a * 4 + b / 16, b % 16 * 16 + c / 4, c % 4 * 64 + d]
        | _, _, _, _ => none
  | w :: x :: y :: z :: rest =>
      match idx w, idx x, idx y, idx z with
      | some a, some b, some c, some d =>
          (b64decodeChars rest).map
            (fun bs => (a * 4 + b / 16) :: (b % 16 * 16 + c / 4) :: (c % 4 * 64 + d) :: bs)
      | _, _, _, _ => none
  | _ => none

/-- `base64.b64decode` on the stored string. -/
def b64decode (s : String) : Option (List Nat) := b64decodeChars s.data

theorem idx_tbl : ∀ n < 64, idx (tbl n) = some n := by decide

theorem tbl_ne_pad : ∀ n < 64, tbl n ≠ '=' := by decide

theorem b64_roundtrip : ∀ (bs : List Nat), (∀ x ∈ bs, x < 256) →
    b64decodeChars (b64encodeChars bs) = some bs
  | [], _ => by simp [b64encodeChars, b64decodeChars]
  | [a], h => by
      have ha : a < 256 := h a (by simp)
      have h1 : a / 4 < 64 := by omega
      have h2 : a % 4 * 16 < 64 := by omega
      simp only [b64encodeChars, b64decodeChars, idx_tbl _ h1, idx_tbl _ h2, if_true,
        Option.some.injEq, List.cons.injEq, and_true]
      omega
  | [a, b], h => by
      have ha : a < 256 := h a (by simp)
      have hb : b < 256 := h b (by simp)
      have h1 : a / 4 < 64 := by omega
      have h2 : a % 4 * 16 + b / 16 < 64 := by omega
      have h3 : b % 16 * 4 < 64 := by omega
      simp only [b64encodeChars, b64decodeChars, idx_tbl _ h1, idx_tbl _ h2, idx_tbl _ h3,
        tbl_ne_pad _ h3, if_true, if_false, Option.some.injEq, List.cons.injEq, and_true]
      omega
  | a :: b :: c :: rest, h => by
      have ha : a < 256 := h a (by simp)
      have hb : b < 256 := h b (by simp)
      have hc : c < 256 := h c (by simp)
      have h1 : a / 4 < 64 := by omega
      have h2 : a % 4 * 16 + b / 16 < 64 := by omega
      have h3 : b % 16 * 4 + c / 64 < 64 := by omega
      have h4 : c % 64 < 64 := by omega
      have ih := b64_roundtrip rest (fun x hx => h x (by simp [hx]))
      match rest with
      | [] =>
          simp only [b64encodeChars, b64decodeChars, idx_tbl _ h1, idx_tbl _ h2,
            idx_tbl _ h3, idx_tbl _ h4, tbl_ne_pad _ h4, if_true, if_false,
            Option.some.injEq, List.cons.injEq, and_true]
          omega
      | r :: rs =>
          have hlen : b64encodeChars (r :: rs) ≠ [] := by
            match rs with
            | [] => simp [b64encodeChars]
            | [u] => simp [b64encodeChars]
            | u :: v :: ws => simp [b64encodeChars]
          match henc : b64encodeChars (r :: rs) with
          | [] => exact absurd henc hlen
          | e :: es =>
              rw [henc] at ih
              simp only [b64encodeChars, henc, b64decodeChars, idx_tbl _ h1, idx_tbl _ h2,
                idx_tbl _ h3, idx_tbl _ h4, ih, Option.map_some',
                Option.some.injEq, List.cons.injEq]
              refine ⟨by omega, by omega, by omega, trivial⟩

/-! ### Data model (`src/schemas.py` plus store-assigned fields)

A stored `modelfile` document: the pydantic `ModelFile` fields plus the
store-assigned identifier (Mongo `_id`, modelled as `oid : Nat`) and the
`updated_at` timestamp (written by the deactivation updates in
`src/main.py` and, on insert, by `create_document` — see `uploadModel`).
Timestamps are modelled as naturals. -/

structure ModelFileDoc where
  oid : Nat
  name : String
  size : Nat
  content_type : String
  data_b64 : String
  active : Bool
  updated_at : Nat
deriving DecidableEq

/-- A stored `modelconfig` document: the pydantic `ModelConfig` fields plus
`oid` (Mongo `_id`) and `updated_at`. -/
structure ModelConfigDoc where
  oid : Nat
  source_type : String
  url : String
  active : Bool
  updated_at : Nat
deriving DecidableEq

/-- The document store: the two collections used by `src/main.py`, plus the
next store-assigned identifier. -/
structure DB where
  modelfile : List ModelFileDoc
  modelconfig : List ModelConfigDoc
  nextId : Nat
deriving DecidableEq

/-- Outcome of a handler as seen by the HTTP client: a successful JSON
response, a raised `HTTPException` (status code, detail), or an exception
that escaped the handler uncaught. -/
inductive HResult (α : Type) where
  | ok : α → HResult α
  | httpError : Nat → String → HResult α
  | unhandled : String → HResult α
deriving DecidableEq

/-- HTTP status of a handler outcome (FastAPI maps an uncaught exception to
a generic 500). -/
def statusOf : HResult α → Nat
  | .ok _ => 200
  | .httpError code _ => code
  | .unhandled _ => 500

/-! ### Store operations (`src/main.py` lines 102-103, 122-123, 137, 147, 167) -/

/-- Effect of `update_many({"active": True}, {"$set": {"active": False,
"updated_at": now}})` on one `modelfile` document. -/
def deactivateFile (now : Nat) (d : ModelFileDoc) : ModelFileDoc :=
  if d.active then { d with active := false, updated_at := now } else d

/-- Effect of the same `update_many` on one `modelconfig` document. -/
def deactivateCfg (now : Nat) (d : ModelConfigDoc) : ModelConfigDoc :=
  if d.active then { d with active := false, updated_at := now } else d

/-- `db['modelfile'].update_many({"active": True}, {"$set": {"active": False,
"updated_at": now}})`. -/
def updateManyDeactivateFiles (now : Nat) (l : List ModelFileDoc) : List ModelFileDoc :=
  l.map (deactivateFile now)

/-- `db['modelconfig'].update_many({"active": True}, {"$set": {"active": False,
"updated_at": now}})`. -/
def updateManyDeactivateCfgs (now : Nat) (l : List ModelConfigDoc) : List ModelConfigDoc :=
  l.map (deactivateCfg now)

/-- Maximum of a list under a numeric key (first maximal element wins ties):
the record a Mongo `find_one(filter, sort=[(key, -1)])` returns. -/
def maxByKey (key : α → Nat) : List α → Option α
  | [] => none
  | d :: ds =>
      match maxByKey key ds with
      | none => some d
      | some m => if key m > key d then some m else some d

/-- `find_one({"active": True}, sort=[("updated_at", -1)])` on `modelfile`. -/
def findOneActiveFile (l : List ModelFileDoc) : Option ModelFileDoc :=
  maxByKey (fun d => d.updated_at) (l.filter (fun d => d.active))

/-- `find_one({"active": True}, sort=[("updated_at", -1)])` on `modelconfig`. -/
def findOneActiveCfg (l : List ModelConfigDoc) : Option ModelConfigDoc :=
  maxByKey (fun d => d.updated_at) (l.filter (fun d => d.active))

/-- Insert a document into a sorted-descending list, keeping earlier
documents first among equal keys. -/
def insertDescBy (key : α → Nat) (d : α) : List α → List α
  | [] => [d]
  | x :: xs => if key d > key x then d :: x :: xs else x :: insertDescBy key d xs

/-- `.sort("updated_at", -1)`: the collection ordered by `updated_at`
descending (insertion sort). -/
def sortDescBy (key : α → Nat) : List α → List α
  | [] => []
  | x :: xs => insertDescBy key x (sortDescBy key xs)

/-! ### Handlers (`src/main.py`) -/

/-- Success body of `POST /api/models` (line 106 of `src/main.py`). -/
structure UploadResp where
  id : Nat
  type : String
  name : String
  size : Nat
  content_type : String
  active : Bool
deriving DecidableEq

/-- Success body of `POST /api/models/url` (line 127 of `src/main.py`). -/
structure UrlResp where
  id : Nat
  type : String
  url : String
  active : Bool
deriving DecidableEq

/-- Python `str.lower()`, character by character. -/
def strToLower (s : String) : String := String.mk (s.data.map Char.toLower)

/-- Whether the first character list starts with the second. -/
def charsStartWith : List Char → List Char → Bool
  | _, [] => true
  | [], _ :: _ => false
  | c :: cs, p :: ps => c == p && charsStartWith cs ps

/-- Python `s.endswith(p)`. -/
def strEndsWith (s p : String) : Bool :=
  charsStartWith s.data.reverse p.data.reverse

/-- Python `s.startswith(p)`. -/
def strStartsWith (s p : String) : Bool := charsStartWith s.data p.data

/-- `file.content_type or 'application/zip'`: Python `or` falls through on
`None` and on the empty string. -/
def contentTypeOrZip : Option String → String
  | none => "application/zip"
  | some s => if s = "" then "application/zip" else s

/-- `upload_model` (`POST /api/models`, lines 78-108 of `src/main.py`) with
every store call succeeding, at instant `now`.  Modelled from the spec:
`create_document` (in `database.py`, not under `src/`) inserts the document
with a fresh store-assigned id and, per the spec's "updated_at: timestamp,
set on every mutation", stamps `updated_at` with the current time.  Returns
the handler outcome and the resulting store. -/
def uploadModel (filename : String) (content : List Nat) (ctype : Option String)
    (now : Nat) (db : DB) : HResult UploadResp × DB :=
  if ¬ (strEndsWith (strToLower filename) ".zip") then
    (.httpError 400 "File must be a .zip archive", db)
  else if content.length = 0 then
    (.httpError 400 "Empty file", db)
  else
    let doc : ModelFileDoc :=
      { oid := db.nextId, name := filename, size := content.length,
        content_type := contentTypeOrZip ctype, data_b64 := b64encode content,
        active := true, updated_at := now }
    ( .ok { id := db.nextId, type := "db", name := filename, size := content.length,
            content_type := contentTypeOrZip ctype, active := true },
      { modelfile := updateManyDeactivateFiles now db.modelfile ++ [doc],
        modelconfig := updateManyDeactivateCfgs now db.modelconfig,
        nextId := db.nextId + 1 } )

/-- `set_model_url` (`POST /api/models/url`, lines 115-127 of `src/main.py`)
with every store call succeeding, at instant `now`, on an already validated
URL string.  `create_document` is modelled as in `uploadModel`. -/
def setModelUrl (url : String) (now : Nat) (db : DB) : HResult UrlResp × DB :=
  let cfg : ModelConfigDoc :=
    { oid := db.nextId, source_type := "url", url := url,
      active := true, updated_at := now }
  ( .ok { id := db.nextId, type := "url", url := url, active := true },
    { modelfile := updateManyDeactivateFiles now db.modelfile,
      modelconfig := updateManyDeactivateCfgs now db.modelconfig ++ [cfg],
      nextId := db.nextId + 1 } )

/-- Simplified model of pydantic's `HttpUrl` validation (`UrlPayload`, line
111-112 of `src/main.py`): an absolute URL with an http or https scheme and
a non-empty remainder.  Only its failure on clearly scheme-less strings is
relied on below. -/
def validUrl (s : String) : Bool :=
  (strStartsWith s "http://" && s.data.length > 7) ||
    (strStartsWith s "https://" && s.data.length > 8)

/-- Body FastAPI sends for a request-validation failure. -/
def urlValidationDetail : String := "value is not a valid URL"

/-- `POST /api/models/url` including the framework step: FastAPI validates
the body against `UrlPayload` before calling `set_model_url`; an invalid
URL is rejected with a 422 validation error and the handler never runs. -/
def dispatchSetModelUrl (url : String) (now : Nat) (db : DB) : HResult UrlResp × DB :=
  if validUrl url then setModelUrl url now db
  else (.httpError 422 urlValidationDetail, db)

/-- Response body of `GET /api/models/active` (lines 138-159 of
`src/main.py`): the url projection, the stored-file projection, or
`{"active": false}`. -/
inductive ActiveResp where
  | urlSrc (url : String) (updated_at : Nat)
  | dbSrc (id : String) (name : String) (size : Nat) (content_type : String)
      (updated_at : Nat)
  | inactive
deriving DecidableEq

/-- `get_active_model` (`GET /api/models/active`, lines 130-159 of
`src/main.py`) with every store call succeeding. -/
def getActiveModel (db : DB) : HResult ActiveResp :=
  match findOneActiveCfg db.modelconfig with
  | some cfg => .ok (.urlSrc cfg.url cfg.updated_at)
  | none =>
      match findOneActiveFile db.modelfile with
      | some doc =>
          .ok (.dbSrc (toString doc.oid) doc.name doc.size doc.content_type doc.updated_at)
      | none => .ok .inactive

/-- A JSON scalar appearing in a `list_models` record. -/
inductive DocVal where
  | s : String → DocVal
  | n : Nat → DocVal
  | b : Bool → DocVal
deriving DecidableEq

/-- The record `list_models` returns for one stored document: the Mongo
projection `{"data_b64": 0}` keeps every other field, and the loop replaces
`_id` by its string form under the key `"id"`. -/
def projectMeta (d : ModelFileDoc) : List (String × DocVal) :=
  [("name", .s d.name), ("size", .n d.size), ("content_type", .s d.content_type),
   ("active", .b d.active), ("updated_at", .n d.updated_at), ("id", .s (toString d.oid))]

/-- The cap `list_models` passes to the cursor: Python `limit or 10` maps
`None` and `0` to `10`, and pymongo's `limit(n)` takes `|n|` documents. -/
def effLimit : Option Int → Nat
  | none => 10
  | some l => if l = 0 then 10 else l.natAbs

/-- The documents `list_models` iterates over:
`find({}, {"data_b64": 0}).sort("updated_at", -1).limit(limit or 10)`. -/
def listModelsDocs (limit : Option Int) (db : DB) : List ModelFileDoc :=
  (sortDescBy (fun d => d.updated_at) db.modelfile).take (effLimit limit)

/-- `list_models` (`GET /api/models`, lines 162-172 of `src/main.py`) with
every store call succeeding. -/
def listModels (limit : Option Int) (db : DB) :
    HResult (List (List (String × DocVal))) :=
  .ok ((listModelsDocs limit db).map projectMeta)

/-! ### Handlers when a store call raises (`src/main.py` error paths)

`upload_model` is the only handler whose store calls sit inside a
`try`/`except`; its handler turns any store exception into
`HTTPException(500, "Failed to store model: " + str(e))` (line 108).
`set_model_url`, `get_active_model` and `list_models` have no handler, so a
store exception escapes the handler uncaught.  The store calls of the two
activation handlers are, in order: `update_many` on `modelfile`,
`update_many` on `modelconfig`, then the insert; a failure at a later call
keeps the mutations of the earlier ones. -/

inductive StoreCall where
  | updFiles
  | updCfgs
  | insertDoc
deriving DecidableEq

/-- `upload_model` when the store call `failing` raises an exception whose
`str` is `msg` (all earlier store calls succeed). -/
def uploadModelExn (filename : String) (content : List Nat)
    (failing : StoreCall) (msg : String) (now : Nat) (db : DB) :
    HResult UploadResp × DB :=
  if ¬ (strEndsWith (strToLower filename) ".zip") then
    (.httpError 400 "File must be a .zip archive", db)
  else if content.length = 0 then
    (.httpError 400 "Empty file", db)
  else
    match failing with
    | .updFiles => (.httpError 500 ("Failed to store model: " ++ msg), db)
    | .updCfgs =>
        (.httpError 500 ("Failed to store model: " ++ msg),
         { db with modelfile := updateManyDeactivateFiles now db.modelfile })
    | .insertDoc =>
        (.httpError 500 ("Failed to store model: " ++ msg),
         { db with modelfile := updateManyDeactivateFiles now db.modelfile,
                   modelconfig := updateManyDeactivateCfgs now db.modelconfig })

/-- `set_model_url` when the store call `failing` raises `msg`: no
`try`/`except`, the exception propagates. -/
def setModelUrlExn (failing : StoreCall) (msg : String) (now : Nat) (db : DB) :
    HResult UrlResp × DB :=
  match failing with
  | .updFiles => (.unhandled msg, db)
  | .updCfgs =>
      (.unhandled msg,
       { db with modelfile := updateManyDeactivateFiles now db.modelfile })
  | .insertDoc =>
      (.unhandled msg,
       { db with modelfile := updateManyDeactivateFiles now db.modelfile,
                 modelconfig := updateManyDeactivateCfgs now db.modelconfig })

/-- `get_active_model` when its first store call (`find_one` on
`modelconfig`) raises `msg`: no `try`/`except`, the exception propagates. -/
def getActiveModelExn (msg : String) : HResult ActiveResp := .unhandled msg

/-- `list_models` when its store call (`find`) raises `msg`: no
`try`/`except`, the exception propagates. -/
def listModelsExn (msg : String) : HResult (List (List (String × DocVal))) :=
  .unhandled msg

/-! ### Derived state observations -/

/-- Number of active records across both collections. -/
def activeCount (db : DB) : Nat :=
  (db.modelfile.filter (fun d => d.active)).length +
    (db.modelconfig.filter (fun d => d.active)).length

/-- Ids of active `modelfile` records. -/
def activeFileIds (db : DB) : List Nat :=
  (db.modelfile.filter (fun d => d.active)).map (fun d => d.oid)

/-- Ids of active `modelconfig` records. -/
def activeCfgIds (db : DB) : List Nat :=
  (db.modelconfig.filter (fun d => d.active)).map (fun d => d.oid)

/-! ### Helper lemmas -/

theorem deactivateFile_not_active (now : Nat) (d : ModelFileDoc) :
    (deactivateFile now d).active = false := by
  unfold deactivateFile
  split
  · rfl
  · rename_i h
    simp only [Bool.not_eq_true] at h
    exact h

theorem deactivateCfg_not_active (now : Nat) (d : ModelConfigDoc) :
    (deactivateCfg now d).active = false := by
  unfold deactivateCfg
  split
  · rfl
  · rename_i h
    simp only [Bool.not_eq_true] at h
    exact h

theorem filter_active_updateManyDeactivateFiles (now : Nat) (l : List ModelFileDoc) :
    (updateManyDeactivateFiles now l).filter (fun d => d.active) = [] := by
  rw [List.filter_eq_nil_iff]
  intro d hd
  rw [updateManyDeactivateFiles, List.mem_map] at hd
  obtain ⟨x, _, rfl⟩ := hd
  simp [deactivateFile_not_active]

theorem filter_active_updateManyDeactivateCfgs (now : Nat) (l : List ModelConfigDoc) :
    (updateManyDeactivateCfgs now l).filter (fun d => d.active) = [] := by
  rw [List.filter_eq_nil_iff]
  intro d hd
  rw [updateManyDeactivateCfgs, List.mem_map] at hd
  obtain ⟨x, _, rfl⟩ := hd
  simp [deactivateCfg_not_active]

theorem maxByKey_mem {key : α → Nat} {l : List α} {m : α}
    (he : maxByKey key l = some m) : m ∈ l := by
  induction l generalizing m with
  | nil => simp [maxByKey] at he
  | cons d ds ih =>
      simp only [maxByKey] at he
      cases h : maxByKey key ds with
      | none =>
          simp only [h] at he
          cases he
          exact List.mem_cons_self _ _
      | some m' =>
          simp only [h] at he
          split at he
          · cases he
            exact List.mem_cons_of_mem _ (ih h)
          · cases he
            exact List.mem_cons_self _ _

theorem maxByKey_nil_of_none {key : α → Nat} : ∀ {l : List α},
    maxByKey key l = none → l = []
  | [], _ => rfl
  | d :: ds, h => by
      simp only [maxByKey] at h
      cases h' : maxByKey key ds with
      | none => simp [h'] at h
      | some m' =>
          simp only [h'] at h
          split at h <;> simp at h

theorem maxByKey_max {key : α → Nat} {l : List α} {m : α}
    (he : maxByKey key l = some m) : ∀ d ∈ l, key d ≤ key m := by
  induction l generalizing m with
  | nil => simp [maxByKey] at he
  | cons d ds ih =>
      simp only [maxByKey] at he
      cases h : maxByKey key ds with
      | none =>
          simp only [h] at he
          cases he
          have hnil := maxByKey_nil_of_none h
          subst hnil
          intro x hx
          simp at hx
          subst hx
          exact le_refl _
      | some m' =>
          simp only [h] at he
          have hmax := ih h
          split at he <;> rename_i hcmp <;> cases he
          · intro x hx
            rcases List.mem_cons.mp hx with rfl | hx'
            · omega
            · exact hmax x hx'
          · intro x hx
            rcases List.mem_cons.mp hx with rfl | hx'
            · exact le_refl _
            · exact le_trans (hmax x hx') (by omega)

theorem maxByKey_singleton {key : α → Nat} (d : α) :
    maxByKey key [d] = some d := by
  simp [maxByKey]

theorem mem_insertDescBy {key : α → Nat} {d y : α} : ∀ {xs : List α},
    y ∈ insertDescBy key d xs → y = d ∨ y ∈ xs
  | [] => by simp [insertDescBy]
  | x :: xs => by
      unfold insertDescBy
      split
      · intro h
        rcases List.mem_cons.mp h with rfl | h'
        · exact Or.inl rfl
        · exact Or.inr h'
      · intro h
        rcases List.mem_cons.mp h with rfl | h'
        · exact Or.inr (List.mem_cons_self _ _)
        · rcases mem_insertDescBy h' with rfl | h''
          · exact Or.inl rfl
          · exact Or.inr (List.mem_cons_of_mem _ h'')

theorem pairwise_insertDescBy {key : α → Nat} {d : α} : ∀ {xs : List α},
    xs.Pairwise (fun a b => key b ≤ key a) →
    (insertDescBy key d xs).Pairwise (fun a b => key b ≤ key a)
  | [], _ => by simp [insertDescBy]
  | x :: xs, h => by
      rw [List.pairwise_cons] at h
      obtain ⟨hx, hxs⟩ := h
      unfold insertDescBy
      split
      · rename_i hgt
        rw [List.pairwise_cons]
        constructor
        · intro y hy
          rcases List.mem_cons.mp hy with rfl | hy'
          · omega
          · exact le_trans (hx y hy') (by omega)
        · rw [List.pairwise_cons]
          exact ⟨hx, hxs⟩
      · rename_i hngt
        rw [List.pairwise_cons]
        constructor
        · intro y hy
          rcases mem_insertDescBy hy with rfl | hy'
          · omega
          · exact hx y hy'
        · exact pairwise_insertDescBy hxs

theorem pairwise_sortDescBy {key : α → Nat} : ∀ (l : List α),
    (sortDescBy key l).Pairwise (fun a b => key b ≤ key a)
  | [] => by simp [sortDescBy]
  | x :: xs => by
      unfold sortDescBy
      exact pairwise_insertDescBy (pairwise_sortDescBy xs)

theorem findOneActiveCfg_deact (now : Nat) (l : List ModelConfigDoc) :
    findOneActiveCfg (updateManyDeactivateCfgs now l) = none := by
  rw [findOneActiveCfg, filter_active_updateManyDeactivateCfgs]
  rfl

theorem findOneActiveFile_deact (now : Nat) (l : List ModelFileDoc) :
    findOneActiveFile (updateManyDeactivateFiles now l) = none := by
  rw [findOneActiveFile, filter_active_updateManyDeactivateFiles]
  rfl

theorem findOneActiveFile_deact_append (now : Nat) (l : List ModelFileDoc)
    (d : ModelFileDoc) (hd : d.active = true) :
    findOneActiveFile (updateManyDeactivateFiles now l ++ [d]) = some d := by
  rw [findOneActiveFile, List.filter_append, filter_active_updateManyDeactivateFiles]
  simp [maxByKey, hd]

theorem findOneActiveCfg_deact_append (now : Nat) (l : List ModelConfigDoc)
    (d : ModelConfigDoc) (hd : d.active = true) :
    findOneActiveCfg (updateManyDeactivateCfgs now l ++ [d]) = some d := by
  rw [findOneActiveCfg, List.filter_append, filter_active_updateManyDeactivateCfgs]
  simp [maxByKey, hd]

/-- Characterization of a successful `upload_model` call: the guards passed
and the response and resulting store are as built in lines 90-106. -/
theorem uploadModel_ok {fn : String} {content : List Nat} {ct : Option String}
    {now : Nat} {db : DB} {r : UploadResp} {db' : DB}
    (he : uploadModel fn content ct now db = (.ok r, db')) :
    strEndsWith (strToLower fn) ".zip" = true ∧ content ≠ [] ∧
    r = { id := db.nextId, type := "db", name := fn, size := content.length,
          content_type := contentTypeOrZip ct, active := true } ∧
    db' = { modelfile := updateManyDeactivateFiles now db.modelfile ++
              [{ oid := db.nextId, name := fn, size := content.length,
                 content_type := contentTypeOrZip ct, data_b64 := b64encode content,
                 active := true, updated_at := now }],
            modelconfig := updateManyDeactivateCfgs now db.modelconfig,
            nextId := db.nextId + 1 } := by
  rw [uploadModel] at he
  split at he
  · simp [Prod.mk.injEq] at he
  · split at he
    · simp [Prod.mk.injEq] at he
    · rename_i hzip hlen
      simp only [Decidable.not_not] at hzip
      rw [Prod.mk.injEq] at he
      obtain ⟨hr, hdb⟩ := he
      rw [HResult.ok.injEq] at hr
      refine ⟨hzip, ?_, hr.symm, hdb.symm⟩
      intro hnil
      rw [hnil] at hlen
      simp at hlen

/-- Characterization of `set_model_url` (lines 121-127): the response and
resulting store. -/
theorem setModelUrl_eq (url : String) (now : Nat) (db : DB) :
    setModelUrl url now db =
      (.ok { id := db.nextId, type := "url", url := url, active := true },
       { modelfile := updateManyDeactivateFiles now db.modelfile,
         modelconfig := updateManyDeactivateCfgs now db.modelconfig ++
           [{ oid := db.nextId, source_type := "url", url := url,
              active := true, updated_at := now }],
         nextId := db.nextId + 1 }) := rfl

/-! ### Concrete stores used to instantiate theorems on explicit inputs -/

/-- An empty store. -/
def dbEmpty : DB := { modelfile := [], modelconfig := [], nextId := 0 }

/-- A stored file record used in the concrete stores below. -/
def oldFileDoc : ModelFileDoc :=
  { oid := 0, name := "old.zip", size := 2, content_type := "application/zip",
    data_b64 := "UEs=", active := true, updated_at := 1 }

/-- A stored URL config record used in the concrete stores below. -/
def urlCfgDoc : ModelConfigDoc :=
  { oid := 1, source_type := "url", url := "http://example.com/model.json",
    active := true, updated_at := 2 }

/-- A store holding one active uploaded file. -/
def dbOneFile : DB :=
  { modelfile := [oldFileDoc], modelconfig := [], nextId := 1 }

/-- A store holding an active URL config and an active file (the race the
spec documents), the config more recently updated. -/
def dbBothActive : DB :=
  { modelfile := [oldFileDoc], modelconfig := [urlCfgDoc], nextId := 2 }

/-- **C1.** Starting from a store with at most one active record across the
two collections, a completed activate-file (`POST /api/models`) or
activate-url (`POST /api/models/url`) operation, run without interleaving
and with all store calls succeeding, leaves exactly one active record
across both collections — the newly inserted one. -/
theorem c1_single_active_invariant (db : DB) (hle : activeCount db ≤ 1) :
    (∀ fn content ct now r db', uploadModel fn content ct now db = (.ok r, db') →
       activeCount db' = 1 ∧ activeFileIds db' = [db.nextId] ∧ activeCfgIds db' = []) ∧
    (∀ url now r db', setModelUrl url now db = (.ok r, db') →
       activeCount db' = 1 ∧ activeCfgIds db' = [db.nextId] ∧ activeFileIds db' = []) := by
  constructor
  · intro fn content ct now r db' he
    obtain ⟨_, _, _, hdb⟩ := uploadModel_ok he
    subst hdb
    refine ⟨?_, ?_, ?_⟩
    · rw [activeCount]
      simp [List.filter_append, filter_active_updateManyDeactivateFiles,
        filter_active_updateManyDeactivateCfgs, List.filter]
    · rw [activeFileIds]
      simp [List.filter_append, filter_active_updateManyDeactivateFiles, List.filter]
    · rw [activeCfgIds]
      simp [filter_active_updateManyDeactivateCfgs]
  · intro url now r db' he
    rw [setModelUrl_eq, Prod.mk.injEq] at he
    obtain ⟨_, hdb⟩ := he
    subst hdb
    refine ⟨?_, ?_, ?_⟩
    · rw [activeCount]
      simp [List.filter_append, filter_active_updateManyDeactivateFiles,
        filter_active_updateManyDeactivateCfgs, List.filter]
    · rw [activeCfgIds]
      simp [List.filter_append, filter_active_updateManyDeactivateCfgs, List.filter]
    · rw [activeFileIds]
      simp [filter_active_updateManyDeactivateFiles]

theorem c1_single_active_invariant_witness :
    activeCount dbOneFile ≤ 1 ∧
    (activeCount (uploadModel "model.zip" [80, 75] none 5 dbOneFile).2 = 1 ∧
     activeFileIds (uploadModel "model.zip" [80, 75] none 5 dbOneFile).2 = [1] ∧
     activeCfgIds (uploadModel "model.zip" [80, 75] none 5 dbOneFile).2 = []) ∧
    (activeCount (setModelUrl "http://example.com/m.json" 6 dbOneFile).2 = 1 ∧
     activeCfgIds (setModelUrl "http://example.com/m.json" 6 dbOneFile).2 = [1] ∧
     activeFileIds (setModelUrl "http://example.com/m.json" 6 dbOneFile).2 = []) :=
  ⟨by decide,
   (c1_single_active_invariant dbOneFile (by decide)).1 "model.zip" [80, 75] none 5
     { id := 1, type := "db", name := "model.zip", size := 2,
       content_type := "application/zip", active := true }
     (uploadModel "model.zip" [80, 75] none 5 dbOneFile).2 (by decide),
   (c1_single_active_invariant dbOneFile (by decide)).2 "http://example.com/m.json" 6
     { id := 1, type := "url", url := "http://example.com/m.json", active := true }
     (setModelUrl "http://example.com/m.json" 6 dbOneFile).2 (by decide)⟩

/-- **C2.** For every valid non-empty zip upload, after activate-file
succeeds with no other activation in between, `GET /api/models/active`
returns type `"db"` with the uploaded file's name and byte length. -/
theorem c2_get_active_after_upload (fn : String) (content : List Nat)
    (ct : Option String) (now : Nat) (db : DB)
    (h1 : strEndsWith (strToLower fn) ".zip" = true) (h2 : content ≠ []) :
    getActiveModel (uploadModel fn content ct now db).2 =
      .ok (.dbSrc (toString db.nextId) fn content.length (contentTypeOrZip ct) now) := by
  have hdb2 : (uploadModel fn content ct now db).2 =
      { modelfile := updateManyDeactivateFiles now db.modelfile ++
          [{ oid := db.nextId, name := fn, size := content.length,
             content_type := contentTypeOrZip ct, data_b64 := b64encode content,
             active := true, updated_at := now }],
        modelconfig := updateManyDeactivateCfgs now db.modelconfig,
        nextId := db.nextId + 1 } := by
    rw [uploadModel, if_neg (by simp [h1]), if_neg (by simp [List.length_eq_zero, h2])]
  rw [hdb2, getActiveModel, findOneActiveCfg_deact,
    findOneActiveFile_deact_append _ _ _ rfl]

theorem c2_get_active_after_upload_witness :
    (strEndsWith (strToLower "model.zip") ".zip" = true) ∧ ([80, 75] : List Nat) ≠ [] ∧
    getActiveModel (uploadModel "model.zip" [80, 75] none 5 dbOneFile).2 =
      .ok (.dbSrc "1" "model.zip" 2 "application/zip" 5) :=
  ⟨by decide, by decide,
   c2_get_active_after_upload "model.zip" [80, 75] none 5 dbOneFile (by decide) (by decide)⟩

/-- **C3.** For every valid absolute URL, after activate-url succeeds with
no other activation in between, `GET /api/models/active` returns type
`"url"` with the registered URL. -/
theorem c3_get_active_after_url (url : String) (now : Nat) (db : DB)
    (hv : validUrl url = true) :
    getActiveModel (dispatchSetModelUrl url now db).2 = .ok (.urlSrc url now) := by
  rw [dispatchSetModelUrl, if_pos hv, setModelUrl_eq]
  rw [getActiveModel, findOneActiveCfg_deact_append _ _ _ rfl]

theorem c3_get_active_after_url_witness :
    validUrl "http://example.com/model.json" = true ∧
    getActiveModel (dispatchSetModelUrl "http://example.com/model.json" 7 dbOneFile).2 =
      .ok (.urlSrc "http://example.com/model.json" 7) :=
  ⟨by decide,
   c3_get_active_after_url "http://example.com/model.json" 7 dbOneFile (by decide)⟩

/-- **C4.** `GET /api/models/active` first queries the config collection for
an active record, preferring the most recently updated; only if none exists
does it query the file collection the same way; if neither has an active
record it returns `{"active": false}` with HTTP 200.  In particular, when
both collections hold an active record, the URL config wins. -/
theorem c4_get_active_preference (db : DB) :
    ((∃ c ∈ db.modelconfig, c.active = true) →
       ∃ c ∈ db.modelconfig, c.active = true ∧
         (∀ c' ∈ db.modelconfig, c'.active = true → c'.updated_at ≤ c.updated_at) ∧
         getActiveModel db = .ok (.urlSrc c.url c.updated_at)) ∧
    ((∀ c ∈ db.modelconfig, c.active = false) → (∃ d ∈ db.modelfile, d.active = true) →
       ∃ d ∈ db.modelfile, d.active = true ∧
         (∀ d' ∈ db.modelfile, d'.active = true → d'.updated_at ≤ d.updated_at) ∧
         getActiveModel db =
           .ok (.dbSrc (toString d.oid) d.name d.size d.content_type d.updated_at)) ∧
    ((∀ c ∈ db.modelconfig, c.active = false) → (∀ d ∈ db.modelfile, d.active = false) →
       getActiveModel db = .ok .inactive ∧ statusOf (getActiveModel db) = 200) := by
  have hcfgNone : (∀ c ∈ db.modelconfig, c.active = false) →
      findOneActiveCfg db.modelconfig = none := by
    intro hall
    rw [findOneActiveCfg, List.filter_eq_nil_iff.mpr ?_]
    · rfl
    · intro c hc
      simp [hall c hc]
  refine ⟨?_, ?_, ?_⟩
  · intro ⟨c0, hc0, hact0⟩
    have hmem0 : c0 ∈ db.modelconfig.filter (fun d => d.active) :=
      List.mem_filter.mpr ⟨hc0, hact0⟩
    cases hfo : findOneActiveCfg db.modelconfig with
    | none =>
        rw [findOneActiveCfg] at hfo
        rw [maxByKey_nil_of_none hfo] at hmem0
        simp at hmem0
    | some m =>
        have hmF : m ∈ db.modelconfig.filter (fun d => d.active) :=
          maxByKey_mem hfo
        have hmMem := (List.mem_filter.mp hmF).1
        have hmAct : m.active = true := by
          have := (List.mem_filter.mp hmF).2
          simpa using this
        refine ⟨m, hmMem, hmAct, ?_, ?_⟩
        · intro c' hc' hact'
          exact maxByKey_max hfo c' (List.mem_filter.mpr ⟨hc', by simp [hact']⟩)
        · rw [getActiveModel, hfo]
  · intro hall ⟨d0, hd0, hact0⟩
    have hmem0 : d0 ∈ db.modelfile.filter (fun d => d.active) :=
      List.mem_filter.mpr ⟨hd0, hact0⟩
    cases hfo : findOneActiveFile db.modelfile with
    | none =>
        rw [findOneActiveFile] at hfo
        rw [maxByKey_nil_of_none hfo] at hmem0
        simp at hmem0
    | some m =>
        have hmF : m ∈ db.modelfile.filter (fun d => d.active) :=
          maxByKey_mem hfo
        have hmMem := (List.mem_filter.mp hmF).1
        have hmAct : m.active = true := by
          have := (List.mem_filter.mp hmF).2
          simpa using this
        refine ⟨m, hmMem, hmAct, ?_, ?_⟩
        · intro d' hd' hact'
          exact maxByKey_max hfo d' (List.mem_filter.mpr ⟨hd', by simp [hact']⟩)
        · rw [getActiveModel, hcfgNone hall, hfo]
  · intro hallC hallF
    have hfileNone : findOneActiveFile db.modelfile = none := by
      rw [findOneActiveFile, List.filter_eq_nil_iff.mpr ?_]
      · rfl
      · intro d hd
        simp [hallF d hd]
    rw [getActiveModel, hcfgNone hallC, hfileNone]
    exact ⟨rfl, rfl⟩

theorem c4_get_active_preference_witness :
    ((∃ c ∈ dbBothActive.modelconfig, c.active = true) ∧
     (∃ c ∈ dbBothActive.modelconfig, c.active = true ∧
        (∀ c' ∈ dbBothActive.modelconfig, c'.active = true → c'.updated_at ≤ c.updated_at) ∧
        getActiveModel dbBothActive = .ok (.urlSrc c.url c.updated_at))) ∧
    ((∀ c ∈ dbOneFile.modelconfig, c.active = false) ∧
     (∃ d ∈ dbOneFile.modelfile, d.active = true) ∧
     (∃ d ∈ dbOneFile.modelfile, d.active = true ∧
        (∀ d' ∈ dbOneFile.modelfile, d'.active = true → d'.updated_at ≤ d.updated_at) ∧
        getActiveModel dbOneFile =
          .ok (.dbSrc (toString d.oid) d.name d.size d.content_type d.updated_at))) ∧
    ((∀ c ∈ dbEmpty.modelconfig, c.active = false) ∧
     (∀ d ∈ dbEmpty.modelfile, d.active = false) ∧
     (getActiveModel dbEmpty = .ok .inactive ∧ statusOf (getActiveModel dbEmpty) = 200)) :=
  ⟨⟨by decide, (c4_get_active_preference dbBothActive).1 (by decide)⟩,
   ⟨by decide, by decide,
    (c4_get_active_preference dbOneFile).2.1 (by decide) (by decide)⟩,
   ⟨by decide, by decide,
    (c4_get_active_preference dbEmpty).2.2 (by decide) (by decide)⟩⟩

/-- **C5, counterexample.**  The claim says list-files returns at most
`limit` records for every integer limit.  With `limit = 0`, Python's
`limit or 10` turns the cap into 10, so a store holding one file record
yields one record — more than the requested 0. -/
theorem c5_list_files_counterexample :
    listModels (some 0) dbOneFile = .ok [projectMeta oldFileDoc] ∧
    ¬ ([projectMeta oldFileDoc].length ≤ 0) := by
  constructor
  · rfl
  · decide

/-- **C5, amended.**  list-files returns at most `effLimit limit` records —
that is, at most `|limit|` when `limit` is a non-zero integer and at most 10
when `limit` is 0 or absent (`effLimit none = 10`) — ordered by
most-recently-updated first, and no returned record contains the
`data_b64` field. -/
theorem c5_list_files_amended (limit : Option Int) (db : DB) :
    listModels limit db = .ok ((listModelsDocs limit db).map projectMeta) ∧
    (listModelsDocs limit db).length ≤ effLimit limit ∧
    effLimit none = 10 ∧
    (listModelsDocs limit db).Pairwise (fun a b => b.updated_at ≤ a.updated_at) ∧
    (∀ rec ∈ (listModelsDocs limit db).map projectMeta, ∀ kv ∈ rec,
       kv.1 ≠ "data_b64") := by
  refine ⟨rfl, ?_, rfl, ?_, ?_⟩
  · rw [listModelsDocs]
    simp only [List.length_take]
    exact min_le_left _ _
  · rw [listModelsDocs]
    exact (pairwise_sortDescBy db.modelfile).sublist (List.take_sublist _ _)
  · intro rec hrec kv hkv
    rw [List.mem_map] at hrec
    obtain ⟨d, _, rfl⟩ := hrec
    rw [projectMeta] at hkv
    simp only [List.mem_cons, List.not_mem_nil, or_false] at hkv
    rcases hkv with rfl | rfl | rfl | rfl | rfl | rfl <;> simp

theorem c5_list_files_amended_witness :
    listModels (some 3) dbOneFile =
      .ok ((listModelsDocs (some 3) dbOneFile).map projectMeta) ∧
    (listModelsDocs (some 3) dbOneFile).length ≤ effLimit (some 3) ∧
    effLimit none = 10 ∧
    (listModelsDocs (some 3) dbOneFile).Pairwise (fun a b => b.updated_at ≤ a.updated_at) ∧
    (∀ rec ∈ (listModelsDocs (some 3) dbOneFile).map projectMeta, ∀ kv ∈ rec,
       kv.1 ≠ "data_b64") :=
  c5_list_files_amended (some 3) dbOneFile

/-- **C6, counterexample.**  The claim says every upload whose filename does
not end in `".zip"` is rejected with a 400 and causes no store mutation.
The code lowercases the filename first, so `"A.ZIP"` — which does not end
in `".zip"` — is accepted and inserted. -/
theorem c6_reject_counterexample :
    strEndsWith "A.ZIP" ".zip" = false ∧
    (uploadModel "A.ZIP" [80] none 3 dbEmpty).1 =
      .ok { id := 0, type := "db", name := "A.ZIP", size := 1,
            content_type := "application/zip", active := true } ∧
    (uploadModel "A.ZIP" [80] none 3 dbEmpty).2 ≠ dbEmpty := by
  refine ⟨by decide, by decide, by decide⟩

/-- **C6, amended.**  For every upload whose *lowercased* filename does not
end in `".zip"`, and for every zero-length upload, `POST /api/models` fails
with a 400 client error and performs no store mutation. -/
theorem c6_reject_bad_uploads (fn : String) (content : List Nat)
    (ct : Option String) (now : Nat) (db : DB) :
    (strEndsWith (strToLower fn) ".zip" = false →
       uploadModel fn content ct now db =
         (.httpError 400 "File must be a .zip archive", db)) ∧
    (content = [] →
       statusOf (uploadModel fn content ct now db).1 = 400 ∧
       (uploadModel fn content ct now db).2 = db) := by
  constructor
  · intro h
    rw [uploadModel, if_pos (by simp [h])]
  · intro h
    subst h
    rw [uploadModel]
    by_cases hz : strEndsWith (strToLower fn) ".zip"
    · rw [if_neg (by simp [hz]), if_pos (show ([] : List Nat).length = 0 from rfl)]
      exact ⟨rfl, rfl⟩
    · rw [if_pos (by simp [hz])]
      exact ⟨rfl, rfl⟩

theorem c6_reject_bad_uploads_witness :
    (strEndsWith (strToLower "bad.txt") ".zip" = false ∧
     uploadModel "bad.txt" [80] none 0 dbEmpty =
       (.httpError 400 "File must be a .zip archive", dbEmpty)) ∧
    (statusOf (uploadModel "empty.zip" [] none 0 dbEmpty).1 = 400 ∧
     (uploadModel "empty.zip" [] none 0 dbEmpty).2 = dbEmpty) :=
  ⟨⟨by decide,
    (c6_reject_bad_uploads "bad.txt" [80] none 0 dbEmpty).1 (by decide)⟩,
   (c6_reject_bad_uploads "empty.zip" [] none 0 dbEmpty).2 rfl⟩

/-- A long exception message, for exercising the error paths. -/
def longExnMsg : String :=
  "pymongo.errors.ServerSelectionTimeoutError: No servers found yet, full topology description follows"

/-- **C7, counterexample.**  The claim says every store exception raised
under a registry endpoint is caught and reported as a service error with a
truncated message, never propagated raw.  `set_model_url` has no
`try`/`except`, so a store exception raised by its first `update_many`
escapes the handler uncaught; and `upload_model`, which does catch, embeds
the full untruncated `str(e)` in its 500 detail. -/
theorem c7_store_exception_counterexample :
    (setModelUrlExn .updFiles "boom" 0 dbEmpty).1 = .unhandled "boom" ∧
    (uploadModelExn "model.zip" [80] .updFiles longExnMsg 0 dbEmpty).1 =
      .httpError 500 ("Failed to store model: " ++ longExnMsg) := by
  constructor
  · rfl
  · unfold uploadModelExn
    rw [if_neg (by decide), if_neg (by decide)]

/-- **C7, amended.**  Only activate-file wraps its store calls: a store
exception there is caught and reported as HTTP 500 with detail
`"Failed to store model: "` followed by the full, untruncated exception
message; in activate-url, get-active and list-files a store exception is
not caught and propagates raw out of the handler. -/
theorem c7_store_exception_amended (failing : StoreCall) (msg : String)
    (now : Nat) (db : DB) :
    (uploadModelExn "model.zip" [80] failing msg now db).1 =
      .httpError 500 ("Failed to store model: " ++ msg) ∧
    (setModelUrlExn failing msg now db).1 = .unhandled msg ∧
    getActiveModelExn msg = (.unhandled msg : HResult ActiveResp) ∧
    listModelsExn msg = .unhandled msg := by
  refine ⟨?_, ?_, rfl, rfl⟩
  · unfold uploadModelExn
    rw [if_neg (by decide), if_neg (by decide)]
    cases failing <;> rfl
  · cases failing <;> rfl

/-- **C8, counterexample.**  The claim says a request with an invalid URL
gets a 400 error.  FastAPI rejects the body during `UrlPayload` validation
with a 422, not a 400. -/
theorem c8_invalid_url_counterexample :
    validUrl "notaurl" = false ∧
    dispatchSetModelUrl "notaurl" 0 dbEmpty =
      (.httpError 422 urlValidationDetail, dbEmpty) ∧
    statusOf (dispatchSetModelUrl "notaurl" 0 dbEmpty).1 ≠ 400 := by decide

/-- **C8, amended.**  For every request to `POST /api/models/url` whose url
field is not a valid absolute URL, the response is a 422 validation error
(a client error) and no store mutation occurs. -/
theorem c8_invalid_url_rejected (url : String) (now : Nat) (db : DB)
    (h : validUrl url = false) :
    dispatchSetModelUrl url now db = (.httpError 422 urlValidationDetail, db) ∧
    statusOf (dispatchSetModelUrl url now db).1 = 422 := by
  rw [dispatchSetModelUrl, if_neg (by simp [h])]
  exact ⟨rfl, rfl⟩

theorem c8_invalid_url_rejected_witness :
    validUrl "notaurl" = false ∧
    (dispatchSetModelUrl "notaurl" 3 dbOneFile =
       (.httpError 422 urlValidationDetail, dbOneFile) ∧
     statusOf (dispatchSetModelUrl "notaurl" 3 dbOneFile).1 = 422) :=
  ⟨by decide, c8_invalid_url_rejected "notaurl" 3 dbOneFile (by decide)⟩

theorem updateManyDeactivateFiles_updated (now : Nat) (l : List ModelFileDoc) :
    ∀ d ∈ updateManyDeactivateFiles now l,
      d.updated_at = now ∨ (d ∈ l ∧ d.active = false) := by
  intro d hd
  rw [updateManyDeactivateFiles, List.mem_map] at hd
  obtain ⟨x, hx, rfl⟩ := hd
  rw [deactivateFile]
  split
  · exact Or.inl rfl
  · rename_i h
    exact Or.inr ⟨hx, by simpa using h⟩

theorem updateManyDeactivateCfgs_updated (now : Nat) (l : List ModelConfigDoc) :
    ∀ c ∈ updateManyDeactivateCfgs now l,
      c.updated_at = now ∨ (c ∈ l ∧ c.active = false) := by
  intro c hc
  rw [updateManyDeactivateCfgs, List.mem_map] at hc
  obtain ⟨x, hx, rfl⟩ := hc
  rw [deactivateCfg]
  split
  · exact Or.inl rfl
  · rename_i h
    exact Or.inr ⟨hx, by simpa using h⟩

/-- **C9.** Every record touched by an activation — the newly inserted one
and every record the deactivation updates rewrite — has its `updated_at`
stamped with the operation's time; records the operation leaves alone were
already inactive and keep their old record unchanged. -/
theorem c9_updated_at_on_mutation (now : Nat) (db : DB) :
    (∀ fn content ct r db', uploadModel fn content ct now db = (.ok r, db') →
       (∀ d ∈ db'.modelfile, d.updated_at = now ∨ (d ∈ db.modelfile ∧ d.active = false)) ∧
       (∀ c ∈ db'.modelconfig, c.updated_at = now ∨ (c ∈ db.modelconfig ∧ c.active = false))) ∧
    (∀ url,
       (∀ d ∈ (setModelUrl url now db).2.modelfile,
          d.updated_at = now ∨ (d ∈ db.modelfile ∧ d.active = false)) ∧
       (∀ c ∈ (setModelUrl url now db).2.modelconfig,
          c.updated_at = now ∨ (c ∈ db.modelconfig ∧ c.active = false))) := by
  constructor
  · intro fn content ct r db' he
    obtain ⟨_, _, _, hdb⟩ := uploadModel_ok he
    subst hdb
    constructor
    · intro d hd
      rcases List.mem_append.mp hd with hd' | hd'
      · exact updateManyDeactivateFiles_updated now db.modelfile d hd'
      · simp only [List.mem_singleton] at hd'
        subst hd'
        exact Or.inl rfl
    · exact updateManyDeactivateCfgs_updated now db.modelconfig
  · intro url
    rw [setModelUrl_eq]
    constructor
    · exact updateManyDeactivateFiles_updated now db.modelfile
    · intro c hc
      rcases List.mem_append.mp hc with hc' | hc'
      · exact updateManyDeactivateCfgs_updated now db.modelconfig c hc'
      · simp only [List.mem_singleton] at hc'
        subst hc'
        exact Or.inl rfl

theorem c9_updated_at_on_mutation_witness :
    (∀ d ∈ (uploadModel "model.zip" [80, 75] none 5 dbOneFile).2.modelfile,
       d.updated_at = 5 ∨ (d ∈ dbOneFile.modelfile ∧ d.active = false)) ∧
    (∀ c ∈ (uploadModel "model.zip" [80, 75] none 5 dbOneFile).2.modelconfig,
       c.updated_at = 5 ∨ (c ∈ dbOneFile.modelconfig ∧ c.active = false)) :=
  (c9_updated_at_on_mutation 5 dbOneFile).1 "model.zip" [80, 75] none
    { id := 1, type := "db", name := "model.zip", size := 2,
      content_type := "application/zip", active := true }
    (uploadModel "model.zip" [80, 75] none 5 dbOneFile).2 (by decide)

/-- **C10.** For every accepted upload, the stored record's `data_b64` field
is the base64 encoding of the uploaded bytes — decoding it returns exactly
the original bytes — and the stored and returned `size` equals the byte
length of the uploaded content. -/
theorem c10_stored_payload_roundtrip (fn : String) (content : List Nat)
    (ct : Option String) (now : Nat) (db : DB)
    (h1 : strEndsWith (strToLower fn) ".zip" = true) (h2 : content ≠ [])
    (h3 : ∀ x ∈ content, x < 256) :
    ∃ doc, (uploadModel fn content ct now db).2.modelfile.getLast? = some doc ∧
      doc.data_b64 = b64encode content ∧
      b64decode doc.data_b64 = some content ∧
      doc.size = content.length ∧
      (uploadModel fn content ct now db).1 =
        .ok { id := db.nextId, type := "db", name := fn, size := content.length,
              content_type := contentTypeOrZip ct, active := true } := by
  have hpair : uploadModel fn content ct now db =
      (.ok { id := db.nextId, type := "db", name := fn, size := content.length,
             content_type := contentTypeOrZip ct, active := true },
       { modelfile := updateManyDeactivateFiles now db.modelfile ++
           [{ oid := db.nextId, name := fn, size := content.length,
              content_type := contentTypeOrZip ct, data_b64 := b64encode content,
              active := true, updated_at := now }],
         modelconfig := updateManyDeactivateCfgs now db.modelconfig,
         nextId := db.nextId + 1 }) := by
    rw [uploadModel, if_neg (by simp [h1]), if_neg (by simp [List.length_eq_zero, h2])]
  refine ⟨{ oid := db.nextId, name := fn, size := content.length,
            content_type := contentTypeOrZip ct, data_b64 := b64encode content,
            active := true, updated_at := now }, ?_, rfl, ?_, rfl, ?_⟩
  · rw [show (uploadModel fn content ct now db).2 = _ from congrArg Prod.snd hpair]
    exact List.getLast?_concat _
  · rw [b64decode, b64encode]
    exact b64_roundtrip content h3
  · rw [show (uploadModel fn content ct now db).1 = _ from congrArg Prod.fst hpair]

theorem c10_stored_payload_roundtrip_witness :
    (strEndsWith (strToLower "model.zip") ".zip" = true ∧
     ([80, 75, 3, 4] : List Nat) ≠ [] ∧ (∀ x ∈ ([80, 75, 3, 4] : List Nat), x < 256)) ∧
    (∃ doc, (uploadModel "model.zip" [80, 75, 3, 4] none 9 dbEmpty).2.modelfile.getLast? =
        some doc ∧
      doc.data_b64 = b64encode [80, 75, 3, 4] ∧
      b64decode doc.data_b64 = some [80, 75, 3, 4] ∧
      doc.size = ([80, 75, 3, 4] : List Nat).length ∧
      (uploadModel "model.zip" [80, 75, 3, 4] none 9 dbEmpty).1 =
        .ok { id := 0, type := "db", name := "model.zip", size := 4,
              content_type := "application/zip", active := true }) :=
  ⟨⟨by decide, by decide, by decide⟩,
   c10_stored_payload_roundtrip "model.zip" [80, 75, 3, 4] none 9 dbEmpty
     (by decide) (by decide) (by decide)⟩

end Registry
